import Mathlib

/-!
Verification of the claude-mem worker core against its TypeScript source.

Each definition below is a shallow embedding of a function of the repository;
the file it embeds is named in the doc comment.  Machine integers are modelled
as `Nat`/`Int`, JavaScript numbers appearing in embeddings as `ℚ` (with the
float32 rounding of the wire format modelled explicitly), and fallible
operations as `Except`/`Option`.
-/

/- ## Conversation history and truncation (src/services/worker/LMStudioAgent.ts) -/

/-- A conversation turn as used by `LMStudioAgent` (`ConversationMessage` in
`worker-types`): a role (`"system"`, `"user"` or `"assistant"`) and a content
string. -/
structure ConversationMessage where
  role : String
  content : String
deriving DecidableEq, Repr

/-- `CHARS_PER_TOKEN_ESTIMATE` from `LMStudioAgent.ts` line 36. -/
def CHARS_PER_TOKEN_ESTIMATE : Nat := 4

/-- `LMStudioAgent.estimateTokens` (lines 251-253): `Math.ceil(text.length / 4)`,
written over `Nat` as `(length + 3) / 4`. -/
def estimateTokens (text : String) : Nat :=
  (text.length + (CHARS_PER_TOKEN_ESTIMATE - 1)) / CHARS_PER_TOKEN_ESTIMATE

/-- Total estimated token count of a history, as computed by the `reduce` on
line 262 of `LMStudioAgent.ts`. -/
def historyTokens (history : List ConversationMessage) : Nat :=
  (history.map (fun m => estimateTokens m.content)).sum

/-- The `for` loop of `LMStudioAgent.truncateHistory` (lines 280-297).  The
first list argument is the non-system part of the history *newest first*
(the loop of the source walks indices downwards); `tokenCount` starts at the
system message's estimate (line 277); accepted messages are prepended to the
accumulator (`unshift`, line 295).  `maxKeep` is
`MAX_CONTEXT_MESSAGES - (systemMsg ? 1 : 0)` from line 284. -/
def truncateLoop (maxKeep maxTokens : Nat) :
    List ConversationMessage → Nat → List ConversationMessage → List ConversationMessage
  | [], _, truncated => truncated
  | msg :: older, tokenCount, truncated =>
    if maxKeep ≤ truncated.length ∨ maxTokens < tokenCount + estimateTokens msg.content then
      truncated
    else
      truncateLoop maxKeep maxTokens older
        (tokenCount + estimateTokens msg.content) (msg :: truncated)

/-- `LMStudioAgent.truncateHistory` (lines 255-305).  The two limits are the
settings-derived `MAX_CONTEXT_MESSAGES` and `MAX_ESTIMATED_TOKENS` (lines
258-259), taken here as parameters.  If both bounds already hold the history
is returned unchanged (lines 261-266); otherwise the system message at index 0
(if any) is set aside (lines 268-270), newest messages are gathered by
`truncateLoop`, and the system message is prepended again (lines 299-302). -/
def truncateHistory (maxContextMessages maxEstimatedTokens : Nat)
    (history : List ConversationMessage) : List ConversationMessage :=
  if history.length ≤ maxContextMessages ∧ historyTokens history ≤ maxEstimatedTokens then
    history
  else
    match history with
    | [] => truncateLoop maxContextMessages maxEstimatedTokens [] 0 []
    | first :: rest =>
      if first.role = "system" then
        first :: truncateLoop (maxContextMessages - 1) maxEstimatedTokens
          rest.reverse (estimateTokens first.content) []
      else
        truncateLoop maxContextMessages maxEstimatedTokens
          (first :: rest).reverse 0 []

/-- A 7-message history opening with a system message, for the concrete
instance quoted by the specification. -/
def exampleSystemMsg : ConversationMessage := ⟨"system", "sys prompt"⟩

/-- The remaining six alternating turns of the 7-message example history. -/
def exampleHistory7 : List ConversationMessage :=
  [exampleSystemMsg, ⟨"user", "u1"⟩, ⟨"assistant", "a1"⟩, ⟨"user", "u2"⟩,
    ⟨"assistant", "a2"⟩, ⟨"user", "u3"⟩, ⟨"assistant", "a3"⟩]

/- ## Session dedup guard (tests/infrastructure/session-dedup.test.ts) -/

/-- The mock session of `session-dedup.test.ts` (lines 11-16), reduced to the
fields the guard reads and writes: whether a generator promise occupies the
slot, and how many generators have been spawned. -/
structure MockSession where
  generatorPromise : Bool
  spawnCount : Nat
deriving DecidableEq, Repr

/-- `createMockSession` (lines 18-25): empty slot, zero spawns. -/
def createMockSession : MockSession :=
  { generatorPromise := false, spawnCount := 0 }

/-- `startGeneratorWithGuard` (lines 30-45): if the `generatorPromise` slot is
occupied, return unchanged reporting `false` (blocked); otherwise bump
`spawnCount`, occupy the slot and report `true` (spawned). -/
def startGeneratorWithGuard (s : MockSession) : MockSession × Bool :=
  if s.generatorPromise then (s, false)
  else ({ generatorPromise := true, spawnCount := s.spawnCount + 1 }, true)

/-- The `.finally` cleanup of the generator promise (lines 39-42): clears the
slot. -/
def completeGenerator (s : MockSession) : MockSession :=
  { s with generatorPromise := false }

/-- A burst of `n` back-to-back enqueue attempts, each running the dedup guard
(the loop of the "block many concurrent attempts" test, lines 76-85). -/
def runBurst : Nat → MockSession → MockSession
  | 0, s => s
  | n + 1, s => runBurst n (startGeneratorWithGuard s).1

lemma runBurst_inflight (n : Nat) (s : MockSession) (h : s.generatorPromise = true) :
    runBurst n s = s := by
  induction n with
  | zero => rfl
  | succ n ih =>
    rw [runBurst, startGeneratorWithGuard, h]
    simpa using ih

lemma runBurst_fresh (n : Nat) (s : MockSession) (h : s.generatorPromise = false)
    (hn : 1 ≤ n) :
    runBurst n s = { generatorPromise := true, spawnCount := s.spawnCount + 1 } := by
  obtain ⟨m, rfl⟩ : ∃ m, n = m + 1 := ⟨n - 1, (Nat.succ_pred_eq_of_pos hn).symm⟩
  rw [runBurst, startGeneratorWithGuard, h]
  simpa using runBurst_inflight m _ rfl

/-- C2: for every burst of `n ≥ 1` enqueue attempts on a fresh session the
dedup guard spawns exactly one generator (`spawnCount = 1`); after the
generator completes, a second burst of `m ≥ 1` attempts spawns exactly one
more (`spawnCount = 2`).  In particular this holds for two bursts of 100. -/
theorem C2_dedup_guard (n m : Nat) (hn : 1 ≤ n) (hm : 1 ≤ m) :
    (runBurst n createMockSession).spawnCount = 1 ∧
      (runBurst m (completeGenerator (runBurst n createMockSession))).spawnCount = 2 := by
  have h1 : runBurst n createMockSession =
      { generatorPromise := true, spawnCount := 1 } := by
    simpa [createMockSession] using runBurst_fresh n createMockSession rfl hn
  rw [h1]
  refine ⟨rfl, ?_⟩
  have h2 := runBurst_fresh m (completeGenerator { generatorPromise := true, spawnCount := 1 }) rfl hm
  rw [h2]
  rfl

/-- Witness for C2 at the specification's concrete stress size of 100
enqueues per burst. -/
theorem C2_dedup_guard_witness :
    (runBurst 100 createMockSession).spawnCount = 1 ∧
      (runBurst 100 (completeGenerator (runBurst 100 createMockSession))).spawnCount = 2 :=
  C2_dedup_guard 100 100 (by norm_num) (by norm_num)

lemma truncateLoop_take (mk mt : Nat) (l : List ConversationMessage)
    (tc : Nat) (acc : List ConversationMessage) :
    ∃ n, truncateLoop mk mt l tc acc = (l.take n).reverse ++ acc := by
  induction l generalizing tc acc with
  | nil => exact ⟨0, by simp [truncateLoop]⟩
  | cons msg older ih =>
    rw [truncateLoop]
    by_cases h : mk ≤ acc.length ∨ mt < tc + estimateTokens msg.content
    · exact ⟨0, by simp [h]⟩
    · rw [if_neg h]
      obtain ⟨n, hn⟩ := ih (tc + estimateTokens msg.content) (msg :: acc)
      refine ⟨n + 1, ?_⟩
      rw [hn]
      simp

lemma truncateLoop_length (mk mt : Nat) (l : List ConversationMessage)
    (tc : Nat) (acc : List ConversationMessage) :
    (truncateLoop mk mt l tc acc).length ≤ max acc.length mk := by
  induction l generalizing tc acc with
  | nil => simp [truncateLoop]
  | cons msg older ih =>
    rw [truncateLoop]
    by_cases h : mk ≤ acc.length ∨ mt < tc + estimateTokens msg.content
    · simp [h]
    · rw [if_neg h]
      push_neg at h
      refine le_trans (ih _ _) ?_
      have hlt : acc.length < mk := h.1
      simp only [List.length_cons]
      omega

lemma truncateLoop_tokens (mk mt : Nat) (l : List ConversationMessage)
    (tc tc0 : Nat) (acc : List ConversationMessage)
    (hinv : tc = tc0 + historyTokens acc) (hle : tc ≤ mt) :
    tc0 + historyTokens (truncateLoop mk mt l tc acc) ≤ mt := by
  induction l generalizing tc acc with
  | nil => rw [truncateLoop]; omega
  | cons msg older ih =>
    rw [truncateLoop]
    by_cases h : mk ≤ acc.length ∨ mt < tc + estimateTokens msg.content
    · rw [if_pos h]; omega
    · rw [if_neg h]
      push_neg at h
      refine ih (tc + estimateTokens msg.content) (msg :: acc) ?_ ?_
      · simp only [historyTokens, List.map_cons, List.sum_cons] at hinv ⊢
        omega
      · omega

lemma historyTokens_cons (m : ConversationMessage) (l : List ConversationMessage) :
    historyTokens (m :: l) = estimateTokens m.content + historyTokens l := by
  simp [historyTokens]

/-- C1 (amended): for every history whose first message has role `system`,
`truncateHistory` returns the system message followed by a suffix of the
remaining messages (so only oldest non-system messages are dropped), with at
most `MAX_CONTEXT_MESSAGES` messages in total; provided the system message's
own token estimate fits in `MAX_TOKENS` (and the message cap is at least 1),
the total token estimate also stays within `MAX_TOKENS`.  The unamended token
bound fails when the always-preserved system message alone exceeds the budget
(see the counterexample).  The second conjunct is the concrete instance: with
`MAX_CONTEXT_MESSAGES = 2` and a 7-message history, the output has length 2
and starts with the system message. -/
theorem C1_truncateHistory_system_preserved (maxM maxT : Nat)
    (history : List ConversationMessage) (sys : ConversationMessage)
    (hhead : history.head? = some sys) (hrole : sys.role = "system")
    (hM : 1 ≤ maxM) (hsysT : estimateTokens sys.content ≤ maxT) :
    (∃ kept, truncateHistory maxM maxT history = sys :: kept ∧
        List.IsSuffix kept history.tail ∧
        (sys :: kept).length ≤ maxM ∧
        historyTokens (sys :: kept) ≤ maxT) ∧
      truncateHistory 2 100000 exampleHistory7 =
        [exampleSystemMsg, ⟨"assistant", "a3"⟩] := by
  constructor
  · obtain ⟨rest, rfl⟩ : ∃ rest, history = sys :: rest := by
      cases history with
      | nil => simp at hhead
      | cons a t =>
        simp only [List.head?_cons, Option.some.injEq] at hhead
        exact ⟨t, by rw [hhead]⟩
    rw [truncateHistory]
    by_cases hc : (sys :: rest).length ≤ maxM ∧ historyTokens (sys :: rest) ≤ maxT
    · rw [if_pos hc]
      exact ⟨rest, rfl, List.suffix_rfl, hc.1, hc.2⟩
    · rw [if_neg hc]
      simp only [hrole, if_pos]
      refine ⟨truncateLoop (maxM - 1) maxT rest.reverse (estimateTokens sys.content) [],
        rfl, ?_, ?_, ?_⟩
      · obtain ⟨n, hn⟩ := truncateLoop_take (maxM - 1) maxT rest.reverse
          (estimateTokens sys.content) []
        rw [hn, List.append_nil]
        refine ⟨(rest.reverse.drop n).reverse, ?_⟩
        rw [← List.reverse_append, List.take_append_drop, List.reverse_reverse]
        rfl
      · have hl := truncateLoop_length (maxM - 1) maxT rest.reverse
          (estimateTokens sys.content) []
        simp only [List.length_nil, Nat.max_eq_right (Nat.zero_le _)] at hl
        simp only [List.length_cons]
        omega
      · have ht := truncateLoop_tokens (maxM - 1) maxT rest.reverse
          (estimateTokens sys.content) (estimateTokens sys.content) []
          (by simp [historyTokens]) hsysT
        rw [historyTokens_cons]
        omega
  · decide

/-- Witness for C1 at `MAX_CONTEXT_MESSAGES = 2`, `MAX_TOKENS = 100000` and the
7-message example history of the specification. -/
theorem C1_truncateHistory_witness :
    (∃ kept, truncateHistory 2 100000 exampleHistory7 = exampleSystemMsg :: kept ∧
        List.IsSuffix kept exampleHistory7.tail ∧
        (exampleSystemMsg :: kept).length ≤ 2 ∧
        historyTokens (exampleSystemMsg :: kept) ≤ 100000) ∧
      truncateHistory 2 100000 exampleHistory7 =
        [exampleSystemMsg, ⟨"assistant", "a3"⟩] :=
  C1_truncateHistory_system_preserved 2 100000 exampleHistory7 exampleSystemMsg
    (by decide) (by decide) (by decide) (by decide)

/-- A history whose system message alone is estimated at 2 tokens, against a
token budget of 1. -/
def cexHistoryC1 : List ConversationMessage := [⟨"system", "12345678"⟩, ⟨"user", "abcd"⟩]

/-- Counterexample to C1 as stated: with `MAX_CONTEXT_MESSAGES = 2` and
`MAX_TOKENS = 1`, the history `cexHistoryC1` (system message of 8 characters,
estimate 2 tokens) truncates to the bare system message, whose estimated token
count 2 exceeds `MAX_TOKENS = 1`: the claimed token bound does not hold because
the system message at index 0 is preserved unconditionally. -/
theorem C1_truncateHistory_counterexample :
    ¬ historyTokens (truncateHistory 2 1 cexHistoryC1) ≤ 1 := by decide

/- ## Provider errors and fallback (src/services/worker/LMStudioAgent.ts,
   startSession error path, lines 230-248) -/

/-- The classes of provider error reachable from `LMStudioAgent.queryLMStudio`:
transient connectivity failures of `fetch` (refused connection, DNS failure,
read timeout), a non-2xx HTTP status converted to an `Error` whose message is
built on line 348, an abort, or anything else. -/
inductive ProviderError where
  | connRefused
  | dnsFailure
  | readTimeout
  | httpStatus (status : Nat) (body : String)
  | aborted
  | otherError (msg : String)
deriving DecidableEq, Repr

/-- Modelled from the spec: `isAbortError` is imported from
`src/services/worker/agents/index.js`, which is not part of the provided
sources; per the specification's cancellation design, only an abort of the
session's token classifies as an abort error. -/
def isAbortError : ProviderError → Bool
  | .aborted => true
  | _ => false

/-- Modelled from the spec: `shouldFallbackToClaude` is imported from
`src/services/worker/agents/index.js`, which is not part of the provided
sources.  Per spec section 4.C ("Fallback"), an error classified as transient
connectivity — refused connection, DNS failure, read timeout — triggers
fallback, while a 4xx provider status (and any other error) is not transient
and does not. -/
def shouldFallbackToClaude : ProviderError → Bool
  | .connRefused => true
  | .dnsFailure => true
  | .readTimeout => true
  | _ => false

/-- The message of the `Error` thrown for a non-ok HTTP response
(`LMStudioAgent.ts` line 348: `LM Studio API error: <status> - <errorText>`);
connectivity failures surface the `fetch failed` error, aborts and other
errors carry their own message. -/
def providerErrorMessage : ProviderError → String
  | .httpStatus status body => "LM Studio API error: " ++ toString status ++ " - " ++ body
  | .connRefused => "fetch failed"
  | .dnsFailure => "fetch failed"
  | .readTimeout => "fetch failed"
  | .aborted => "This operation was aborted"
  | .otherError msg => msg

/-- Outcome of `LMStudioAgent.startSession` when the provider raises an error:
rethrow aborts, hand the session (with its existing conversation history) to
the fallback agent, or reject with the error's message. -/
inductive SessionOutcome where
  | fallback (history : List ConversationMessage)
  | rejected (msg : String)
  | abortedOut
deriving DecidableEq, Repr

/-- The `catch` block of `LMStudioAgent.startSession` (lines 230-248): abort
errors are rethrown (lines 231-234); if `shouldFallbackToClaude(error)` holds
and a fallback agent is configured, the session — carrying its existing
`conversationHistory` — is handed to `fallbackAgent.startSession` (lines
236-244); otherwise the error is rethrown, rejecting `startSession` with the
provider's message (lines 246-247). -/
def startSessionOnError (e : ProviderError) (hasFallback : Bool)
    (history : List ConversationMessage) : SessionOutcome :=
  if isAbortError e then .abortedOut
  else if shouldFallbackToClaude e && hasFallback then .fallback history
  else .rejected (providerErrorMessage e)

/-- C3: each transient-connectivity error (refused connection, DNS failure,
read timeout) with a fallback agent configured hands the session off to the
fallback with the existing conversation history, raising no failure; a 4xx
provider status never invokes the fallback and rejects `startSession` with
the provider's message (`LM Studio API error: <status> - <body>`). -/
theorem C3_fallback_classification (history : List ConversationMessage) (body : String) :
    startSessionOnError .connRefused true history = .fallback history ∧
      startSessionOnError .dnsFailure true history = .fallback history ∧
      startSessionOnError .readTimeout true history = .fallback history ∧
      (∀ status : Nat, ∀ hasFallback : Bool, 400 ≤ status → status ≤ 499 →
        startSessionOnError (.httpStatus status body) hasFallback history =
          .rejected ("LM Studio API error: " ++ toString status ++ " - " ++ body)) := by
  refine ⟨rfl, rfl, rfl, fun status hasFallback _ _ => ?_⟩
  cases hasFallback <;> rfl

/-- Witness for C3 at the specification's concrete scenario: HTTP 400 with a
fallback configured is rejected with the provider's message, and
`ECONNREFUSED` with a fallback configured hands off the history. -/
theorem C3_fallback_witness :
    startSessionOnError (.httpStatus 400 "Invalid argument") true [] =
      .rejected ("LM Studio API error: " ++ toString 400 ++ " - " ++ "Invalid argument") :=
  (C3_fallback_classification [] "Invalid argument").2.2.2 400 true (by norm_num) (by norm_num)

/- ## Vector document granulation (src/services/vector/SqliteVecBackend.ts) -/

/-- JavaScript string truthiness for a nullable string field: truthy iff
present and non-empty. -/
def strTruthy : Option String → Bool
  | some s => decide (s ≠ "")
  | none => false

/-- The fields of a `StoredObservation` (SqliteVecBackend.ts lines 36-53) read
by `formatObservationDocs`.  `facts` and `concepts` are stored JSON-encoded
and parsed on lines 230-231; they are modelled directly as their parsed
lists. -/
structure StoredObservation where
  id : Nat
  memory_session_id : String
  project : String
  text : Option String
  type : String
  title : Option String
  subtitle : Option String
  facts : List String
  narrative : Option String
  concepts : List String
  created_at_epoch : Int
deriving DecidableEq, Repr

/-- The fields of a `StoredSummary` (SqliteVecBackend.ts lines 55-69) read by
`formatSummaryDocs`. -/
structure StoredSummary where
  id : Nat
  memory_session_id : String
  project : String
  request : Option String
  investigated : Option String
  learned : Option String
  completed : Option String
  next_steps : Option String
  notes : Option String
  prompt_number : Nat
  created_at_epoch : Int
deriving DecidableEq, Repr

/-- A `VectorDocument` (SqliteVecBackend.ts lines 71-80); the JSON metadata
object is modelled as an association list. -/
structure VectorDocument where
  id : String
  content : String
  sqliteId : Nat
  docType : String
  memorySessionId : String
  project : String
  createdAtEpoch : Int
  metadata : List (String × String)
deriving DecidableEq, Repr

/-- `baseMetadata` of `formatObservationDocs` (lines 233-239): type defaulting
to `discovery`, title defaulting to `Untitled`, optional subtitle, concepts
joined by commas when non-empty. -/
def observationBaseMetadata (obs : StoredObservation) : List (String × String) :=
  [("type", if obs.type = "" then "discovery" else obs.type),
    ("title", match obs.title with
      | some t => if t = "" then "Untitled" else t
      | none => "Untitled")] ++
    (if strTruthy obs.subtitle then [("subtitle", obs.subtitle.getD "")] else []) ++
    (if 0 < obs.concepts.length then [("concepts", String.intercalate "," obs.concepts)] else [])

/-- The fact-document builder of `formatObservationDocs` (the `forEach` on
lines 267-278): document `obs_<id>_fact_<index>` for the fact at `index`. -/
def observationFactDoc (obs : StoredObservation) (index : Nat) (fact : String) :
    VectorDocument :=
  { id := "obs_" ++ toString obs.id ++ "_fact_" ++ toString index,
    content := fact,
    sqliteId := obs.id,
    docType := "observation",
    memorySessionId := obs.memory_session_id,
    project := obs.project,
    createdAtEpoch := obs.created_at_epoch,
    metadata := observationBaseMetadata obs ++
      [("field_type", "fact"), ("fact_index", toString index)] }

/-- `SqliteVecBackend.formatObservationDocs` (lines 228-281): one document for
the narrative when truthy (id `obs_<id>_narrative`), one for the text when
truthy (id `obs_<id>_text`), and one per fact (id `obs_<id>_fact_<index>`). -/
def formatObservationDocs (obs : StoredObservation) : List VectorDocument :=
  (if strTruthy obs.narrative then
    [{ id := "obs_" ++ toString obs.id ++ "_narrative",
       content := obs.narrative.getD "",
       sqliteId := obs.id,
       docType := "observation",
       memorySessionId := obs.memory_session_id,
       project := obs.project,
       createdAtEpoch := obs.created_at_epoch,
       metadata := observationBaseMetadata obs ++ [("field_type", "narrative")] }]
  else []) ++
  (if strTruthy obs.text then
    [{ id := "obs_" ++ toString obs.id ++ "_text",
       content := obs.text.getD "",
       sqliteId := obs.id,
       docType := "observation",
       memorySessionId := obs.memory_session_id,
       project := obs.project,
       createdAtEpoch := obs.created_at_epoch,
       metadata := observationBaseMetadata obs ++ [("field_type", "text")] }]
  else []) ++
  obs.facts.mapIdx (observationFactDoc obs)

/-- One iteration of the field loop of `formatSummaryDocs` (lines 286-300):
a document with id `summary_<id>_<field>` when the field is truthy. -/
def summaryFieldDoc (summary : StoredSummary) (field : String)
    (value : Option String) : List VectorDocument :=
  if strTruthy value then
    [{ id := "summary_" ++ toString summary.id ++ "_" ++ field,
       content := value.getD "",
       sqliteId := summary.id,
       docType := "session_summary",
       memorySessionId := summary.memory_session_id,
       project := summary.project,
       createdAtEpoch := summary.created_at_epoch,
       metadata := [("field_type", field), ("prompt_number", toString summary.prompt_number)] }]
  else []

/-- `SqliteVecBackend.formatSummaryDocs` (lines 283-303): one document per
truthy field among the six summary fields, in declaration order. -/
def formatSummaryDocs (summary : StoredSummary) : List VectorDocument :=
  summaryFieldDoc summary "request" summary.request ++
    summaryFieldDoc summary "investigated" summary.investigated ++
    summaryFieldDoc summary "learned" summary.learned ++
    summaryFieldDoc summary "completed" summary.completed ++
    summaryFieldDoc summary "next_steps" summary.next_steps ++
    summaryFieldDoc summary "notes" summary.notes

lemma map_mapIdx_eq_range_map {α β γ : Type} (l : List α) (f : Nat → α → β) (g : β → γ)
    (h : Nat → γ) (hfg : ∀ i a, g (f i a) = h i) :
    (l.mapIdx f).map g = (List.range l.length).map h := by
  induction l generalizing f h with
  | nil => rfl
  | cons a l ih =>
    rw [List.mapIdx_cons, List.length_cons, List.range_succ_eq_map]
    simp only [List.map_cons, List.map_map]
    rw [hfg 0 a]
    refine congrArg (h 0 :: ·) ?_
    rw [ih (fun i b => f (i + 1) b) (fun i => h (i + 1)) (fun i b => hfg (i + 1) b)]
    rfl

lemma observationFactDoc_ids (obs : StoredObservation) (l : List String) :
    (l.mapIdx (observationFactDoc obs)).map (fun d => d.id) =
      (List.range l.length).map
        (fun index => "obs_" ++ toString obs.id ++ "_fact_" ++ toString index) :=
  map_mapIdx_eq_range_map l (observationFactDoc obs) (fun d => d.id)
    (fun index => "obs_" ++ toString obs.id ++ "_fact_" ++ toString index)
    (fun _ _ => rfl)

lemma summaryFieldDoc_ids (summary : StoredSummary) (field : String) (value : Option String) :
    (summaryFieldDoc summary field value).map (fun d => d.id) =
      if strTruthy value then ["summary_" ++ toString summary.id ++ "_" ++ field] else [] := by
  cases h : strTruthy value <;> simp [summaryFieldDoc, h]

/-- An observation with a narrative, no text and two facts, for the concrete
instance of the granulation claim. -/
def exampleObs : StoredObservation :=
  { id := 42, memory_session_id := "mem", project := "proj", text := none,
    type := "discovery", title := some "Found bug", subtitle := none,
    facts := ["Null check missing", "Crash on empty input"],
    narrative := some "Found a null pointer in the code", concepts := [],
    created_at_epoch := 1700000000 }

/-- C4: for every observation, granulation yields exactly one document per
truthy field among narrative and text plus one per fact, with ids
`obs_<id>_narrative`, `obs_<id>_text` and `obs_<id>_fact_<index>`; for every
summary, one document per truthy field among the six, with ids
`summary_<id>_<field>`.  The final conjunct is the concrete instance: a
narrative plus two facts yield exactly the three documents
`obs_42_narrative`, `obs_42_fact_0`, `obs_42_fact_1`. -/
theorem C4_granulation (obs : StoredObservation) (summary : StoredSummary) :
    ((formatObservationDocs obs).map (fun d => d.id) =
      (if strTruthy obs.narrative then ["obs_" ++ toString obs.id ++ "_narrative"] else []) ++
        (if strTruthy obs.text then ["obs_" ++ toString obs.id ++ "_text"] else []) ++
        (List.range obs.facts.length).map
          (fun index => "obs_" ++ toString obs.id ++ "_fact_" ++ toString index)) ∧
      ((formatSummaryDocs summary).map (fun d => d.id) =
        (if strTruthy summary.request then ["summary_" ++ toString summary.id ++ "_request"] else []) ++
          (if strTruthy summary.investigated then ["summary_" ++ toString summary.id ++ "_investigated"] else []) ++
          (if strTruthy summary.learned then ["summary_" ++ toString summary.id ++ "_learned"] else []) ++
          (if strTruthy summary.completed then ["summary_" ++ toString summary.id ++ "_completed"] else []) ++
          (if strTruthy summary.next_steps then ["summary_" ++ toString summary.id ++ "_next_steps"] else []) ++
          (if strTruthy summary.notes then ["summary_" ++ toString summary.id ++ "_notes"] else [])) ∧
      (formatObservationDocs exampleObs).map (fun d => d.id) =
        ["obs_42_narrative", "obs_42_fact_0", "obs_42_fact_1"] := by
  refine ⟨?_, ?_, by decide⟩
  · simp only [formatObservationDocs, List.map_append, observationFactDoc_ids]
    cases hn : strTruthy obs.narrative <;> cases ht : strTruthy obs.text <;>
      simp [hn, ht]
  · have h1 : ∀ x : String, x ++ "_" ++ "request" = x ++ "_request" :=
      fun x => by rw [String.append_assoc]; rfl
    have h2 : ∀ x : String, x ++ "_" ++ "investigated" = x ++ "_investigated" :=
      fun x => by rw [String.append_assoc]; rfl
    have h3 : ∀ x : String, x ++ "_" ++ "learned" = x ++ "_learned" :=
      fun x => by rw [String.append_assoc]; rfl
    have h4 : ∀ x : String, x ++ "_" ++ "completed" = x ++ "_completed" :=
      fun x => by rw [String.append_assoc]; rfl
    have h5 : ∀ x : String, x ++ "_" ++ "next_steps" = x ++ "_next_steps" :=
      fun x => by rw [String.append_assoc]; rfl
    have h6 : ∀ x : String, x ++ "_" ++ "notes" = x ++ "_notes" :=
      fun x => by rw [String.append_assoc]; rfl
    simp only [formatSummaryDocs, List.map_append, summaryFieldDoc_ids,
      h1, h2, h3, h4, h5, h6]

/- ## Memory session id synthesis order (src/services/worker/LMStudioAgent.ts,
   startSession happy path, lines 84-219) -/

/-- The externally visible steps of `LMStudioAgent.startSession` relevant to
the ordering of memory-session-id assignment and observation processing. -/
inductive AgentEvent where
  | persistMemoryId (memorySessionId : String)
  | processInitResponse
  | processObservationMsg
  | processSummaryMsg
deriving DecidableEq, Repr

/-- A pending message as consumed by the message loop (only its `type` field
drives the control flow of lines 150-218). -/
structure PendingMessage where
  type : String
deriving DecidableEq, Repr

/-- JavaScript falsiness of the nullable `session.memorySessionId` string
checked on line 104: absent or empty. -/
def memFalsy : Option String → Bool
  | none => true
  | some s => decide (s = "")

/-- The event trace of `LMStudioAgent.startSession` (lines 84-219): only when
the init response content is non-empty (line 101), a synthetic
`lmstudio-<contentSessionId>` memory session id is generated and persisted if
none is set (lines 104-114), and the init response is processed (line 122);
afterwards the pending messages are processed in order (lines 144-219),
observation and summarize messages each driving one LLM round. -/
def startSessionTrace (memorySessionId : Option String) (contentSessionId : String)
    (initContent : String) (messages : List PendingMessage) : List AgentEvent :=
  (if initContent ≠ "" then
    (if memFalsy memorySessionId then
      [AgentEvent.persistMemoryId ("lmstudio-" ++ contentSessionId)]
    else []) ++ [AgentEvent.processInitResponse]
  else []) ++
  messages.filterMap (fun m =>
    if m.type = "observation" then some AgentEvent.processObservationMsg
    else if m.type = "summarize" then some AgentEvent.processSummaryMsg
    else none)

/-- C6 (amended): for every session with no memory session id yet whose init
response has non-empty content, `startSession` synthesizes
`lmstudio-<content_session_id>` and persists it as the very first step, hence
before any pending observation message is processed.  The unamended claim
fails when the init response is empty: synthesis is skipped entirely and
pending observations are still processed (see the counterexample). -/
theorem C6_memory_session_id_first (memorySessionId : Option String)
    (contentSessionId initContent : String) (messages : List PendingMessage)
    (hmem : memFalsy memorySessionId = true) (hinit : initContent ≠ "") :
    (startSessionTrace memorySessionId contentSessionId initContent messages).head? =
      some (AgentEvent.persistMemoryId ("lmstudio-" ++ contentSessionId)) := by
  rw [startSessionTrace, if_pos hinit, if_pos hmem]
  rfl

/-- Witness for C6: a fresh session (`memorySessionId = null`) with content
session id `test-session` and a non-empty init response persists
`lmstudio-test-session` before its single pending observation is handled. -/
theorem C6_memory_session_id_witness :
    (startSessionTrace none "test-session" "<no_observation/>" [⟨"observation"⟩]).head? =
      some (AgentEvent.persistMemoryId ("lmstudio-" ++ "test-session")) :=
  C6_memory_session_id_first none "test-session" "<no_observation/>" [⟨"observation"⟩]
    (by decide) (by decide)

/-- Counterexample to C6 as stated: when the init response is empty (the
`else` branch of line 133), no memory session id is synthesized or persisted,
yet the pending observation message is still processed — the trace is exactly
one observation-processing event with no preceding persist event. -/
theorem C6_memory_session_id_counterexample :
    startSessionTrace none "test-session" "" [⟨"observation"⟩] =
      [AgentEvent.processObservationMsg] := by decide

/- ## Observer registry pruning (src/services/infrastructure/ObserverRegistry.ts,
   src/services/infrastructure/ObserverReaper.ts) -/

/-- `Set.add` semantics of `sessionPids.add(pid)` (ObserverRegistry.ts line
48): append the pid if not already present. -/
def addPid (pids : List Nat) (pid : Nat) : List Nat :=
  if pid ∈ pids then pids else pids ++ [pid]

/-- `ObserverRegistry.registerObservers` (lines 38-56).  The registry
`Map<number, Set<number>>` is modelled as an association list from session id
to pid list.  Empty pid batches are ignored (line 39); otherwise the session's
set is created if missing and each pid union-added. -/
def registerObservers (registry : List (Nat × List Nat)) (sessionDbId : Nat)
    (pids : List Nat) : List (Nat × List Nat) :=
  if pids = [] then registry
  else if (registry.find? (fun e => e.1 = sessionDbId)).isSome then
    registry.map (fun e => if e.1 = sessionDbId then (e.1, pids.foldl addPid e.2) else e)
  else
    registry ++ [(sessionDbId, pids.foldl addPid [])]

/-- `ObserverRegistry.pruneDeadPids` (lines 145-161), with the OS process
table abstracted as the aliveness predicate checked by `process.kill(pid, 0)`
(line 150): every dead pid is deleted from its session's set (counted), and a
session whose set becomes empty is removed (lines 156-158).  Returns the
pruned registry and the count. -/
def pruneDeadPids (alive : Nat → Bool) (registry : List (Nat × List Nat)) :
    List (Nat × List Nat) × Nat :=
  ((registry.map (fun e => (e.1, e.2.filter alive))).filter (fun e => !e.2.isEmpty),
    (registry.map (fun e => (e.2.filter (fun pid => !alive pid)).length)).sum)

/-- Total number of registered pids across all sessions. -/
def totalPids (registry : List (Nat × List Nat)) : Nat :=
  (registry.map (fun e => e.2.length)).sum

lemma filter_length_split {α : Type} (p : α → Bool) (l : List α) :
    (l.filter p).length + (l.filter (fun a => !p a)).length = l.length := by
  induction l with
  | nil => rfl
  | cons a l ih =>
    cases h : p a <;> simp [List.filter_cons, h, ← ih] <;> omega

/-- C9: `pruneDeadPids` keeps exactly the sessions that retain a live pid,
each cut down to its alive pids; the returned count is exactly the number of
pids removed (`totalPids` before minus after); and — the reaper scenario — a
session registered with two pids that do not exist in the process table is
left with zero pids (the session itself is removed) after one prune, with
count 2. -/
theorem C9_pruneDeadPids (alive : Nat → Bool) (registry : List (Nat × List Nat)) :
    (∀ sessionDbId keptPids,
        ((sessionDbId, keptPids) ∈ (pruneDeadPids alive registry).1 ↔
          ∃ pids, (sessionDbId, pids) ∈ registry ∧ keptPids = pids.filter alive ∧
            keptPids ≠ [])) ∧
      (pruneDeadPids alive registry).2 + totalPids (pruneDeadPids alive registry).1 =
        totalPids registry ∧
      pruneDeadPids (fun _ => false) (registerObservers [] 1 [90001, 90002]) = ([], 2) := by
  refine ⟨?_, ?_, by decide⟩
  · intro sessionDbId keptPids
    constructor
    · intro hmem
      rw [pruneDeadPids, List.mem_filter] at hmem
      obtain ⟨hmap, hne⟩ := hmem
      rw [List.mem_map] at hmap
      obtain ⟨e, hemem, heq⟩ := hmap
      refine ⟨e.2, ?_, ?_, ?_⟩
      · have h1 : e.1 = sessionDbId := congrArg Prod.fst heq
        rw [← h1]
        exact hemem
      · exact (congrArg Prod.snd heq).symm
      · intro hnil
        rw [hnil] at hne
        simp at hne
    · rintro ⟨pids, hmem, rfl, hne⟩
      rw [pruneDeadPids, List.mem_filter]
      constructor
      · rw [List.mem_map]
        exact ⟨(sessionDbId, pids), hmem, rfl⟩
      · simpa using hne
  · rw [pruneDeadPids, totalPids]
    have hdrop : ∀ l : List (Nat × List Nat),
        ((l.filter (fun e => !e.2.isEmpty)).map (fun e => e.2.length)).sum =
          (l.map (fun e => e.2.length)).sum := by
      intro l
      induction l with
      | nil => rfl
      | cons e l ih =>
        rw [List.filter_cons]
        cases h : e.2.isEmpty
        · simp [ih]
        · have hz : e.2.length = 0 := by
            rw [List.isEmpty_iff] at h
            rw [h]
            rfl
          simp [ih, hz]
    rw [hdrop]
    rw [totalPids]
    induction registry with
    | nil => rfl
    | cons e l ih =>
      simp only [List.map_cons, List.map_map, List.sum_cons] at ih ⊢
      have he := filter_length_split alive e.2
      omega

/-- Witness for C9: the reaper scenario extracted at a concrete registry —
after registering pids 90001 and 90002 (both dead) for session 1, one prune
cycle empties and removes the session and reports 2 pruned. -/
theorem C9_pruneDeadPids_witness :
    pruneDeadPids (fun _ => false) (registerObservers [] 1 [90001, 90002]) = ([], 2) :=
  (C9_pruneDeadPids (fun _ => false) []).2.2

/- ## Vector query: filters, ordering, dedup (src/services/vector/SqliteVecBackend.ts,
   query lines 478-564 and bruteForceSearch lines 566-601) -/

/-- `VectorFilters` (services/vector/VectorBackend.ts): the optional
conjunctive filter fields of a query. -/
structure VectorFilters where
  project : Option String := none
  docType : Option String := none
  memorySessionId : Option String := none
  minEpoch : Option Int := none
  maxEpoch : Option Int := none
deriving DecidableEq, Repr

/-- A row of the `vector_documents` table (schema on lines 174-187), carrying
the decoded embedding (`NULL`-able `BLOB` column). -/
structure VectorRow where
  id : String
  sqliteId : Nat
  docType : String
  content : String
  metadata : String
  memorySessionId : String
  project : String
  createdAtEpoch : Int
  embedding : Option (List ℚ)
deriving DecidableEq, Repr

/-- A `VectorQueryResult` (services/vector/VectorBackend.ts) as produced on
lines 586-594. -/
structure VectorQueryResult where
  id : String
  sqliteId : Nat
  docType : String
  distance : ℚ
  content : String
deriving DecidableEq, Repr

/-- The conjunction of the filter conditions built on lines 498-522 of
`SqliteVecBackend.query`.  Each field contributes a condition only when
JavaScript-truthy (`if (filters?.project)` etc.), so an absent, empty-string
or zero value adds no constraint; `minEpoch`/`maxEpoch` compare against
`created_at_epoch` inclusively. -/
def matchesFilters (f : VectorFilters) (r : VectorRow) : Bool :=
  (match f.project with
    | some p => if p = "" then true else decide (r.project = p)
    | none => true) &&
  (match f.docType with
    | some t => if t = "" then true else decide (r.docType = t)
    | none => true) &&
  (match f.memorySessionId with
    | some m => if m = "" then true else decide (r.memorySessionId = m)
    | none => true) &&
  (match f.minEpoch with
    | some e => if e = 0 then true else decide (e ≤ r.createdAtEpoch)
    | none => true) &&
  (match f.maxEpoch with
    | some e => if e = 0 then true else decide (r.createdAtEpoch ≤ e)
    | none => true)

/-- The per-row scoring of `bruteForceSearch` (lines 584-595): distance is
`1 - cosineSimilarity(queryEmbedding, rowEmbedding)`.  The cosine similarity
of `cosineSimilarity` (lines 603-618) is floating-point arithmetic over the
query embedding held fixed during one search, abstracted here as the function
`sim` from the row's embedding to the similarity value; the ordering, filter
and dedup properties proved below hold for every such function. -/
def scoreRow (sim : List ℚ → ℚ) (r : VectorRow) : VectorQueryResult :=
  { id := r.id,
    sqliteId := r.sqliteId,
    docType := r.docType,
    distance := 1 - sim (r.embedding.getD []),
    content := r.content }

/-- Result order of the sort on line 599: ascending distance. -/
def resLE (a b : VectorQueryResult) : Prop := a.distance ≤ b.distance

instance : DecidableRel resLE :=
  fun a b => inferInstanceAs (Decidable (a.distance ≤ b.distance))

instance : IsTotal VectorQueryResult resLE :=
  ⟨fun a b => le_total a.distance b.distance⟩

instance : IsTrans VectorQueryResult resLE :=
  ⟨fun _ _ _ h1 h2 => le_trans h1 h2⟩

/-- `SqliteVecBackend.bruteForceSearch` (lines 566-601): select the rows
matching the filter whose embedding is not `NULL` (the `WHERE` clause on
lines 574-579), score each by cosine distance, sort ascending by distance
(line 599) and keep the first `limit` results (line 600).  (The vec0 KNN path
of `query`, lines 524-550, runs inside the sqlite-vec native extension and
falls back to this scan whenever it fails.) -/
def bruteForceSearch (sim : List ℚ → ℚ) (rows : List VectorRow) (limit : Nat)
    (f : VectorFilters) : List VectorQueryResult :=
  List.take limit
    (List.insertionSort resLE
      ((rows.filter (fun r => matchesFilters f r && r.embedding.isSome)).map (scoreRow sim)))

/-- The dedup pass of `query` (lines 557-563): keep a result only if its
`sqlite_id` has not been seen yet, walking the distance-ordered list, so the
best-scoring document per owning row survives. -/
def dedupBySqliteId : List VectorQueryResult → List Nat → List VectorQueryResult
  | [], _ => []
  | r :: rest, seen =>
    if r.sqliteId ∈ seen then dedupBySqliteId rest seen
    else r :: dedupBySqliteId rest (r.sqliteId :: seen)

/-- `SqliteVecBackend.query` (lines 478-564): return `[]` when the database or
the embedding provider is not set up (line 483) or when embedding the query
text fails (lines 487-493); otherwise search and dedup by `sqlite_id`. -/
def queryModel (dbOpen hasProvider : Bool) (embedOutcome : Except String (List ℚ))
    (sim : List ℚ → List ℚ → ℚ) (rows : List VectorRow) (limit : Nat)
    (f : VectorFilters) : List VectorQueryResult :=
  if !dbOpen || !hasProvider then []
  else
    match embedOutcome with
    | Except.error _ => []
    | Except.ok queryEmbedding =>
      dedupBySqliteId (bruteForceSearch (sim queryEmbedding) rows limit f) []

lemma dedupBySqliteId_sublist (l : List VectorQueryResult) (seen : List Nat) :
    List.Sublist (dedupBySqliteId l seen) l := by
  induction l generalizing seen with
  | nil => simp [dedupBySqliteId]
  | cons r rest ih =>
    rw [dedupBySqliteId]
    by_cases h : r.sqliteId ∈ seen
    · rw [if_pos h]
      exact (ih seen).cons r
    · rw [if_neg h]
      exact (ih (r.sqliteId :: seen)).cons₂ r

lemma dedupBySqliteId_not_seen (l : List VectorQueryResult) (seen : List Nat) :
    ∀ x ∈ dedupBySqliteId l seen, x.sqliteId ∉ seen := by
  induction l generalizing seen with
  | nil => intro x hx; simp [dedupBySqliteId] at hx
  | cons r rest ih =>
    intro x hx
    rw [dedupBySqliteId] at hx
    by_cases h : r.sqliteId ∈ seen
    · rw [if_pos h] at hx
      exact ih seen x hx
    · rw [if_neg h] at hx
      rcases List.mem_cons.mp hx with rfl | hx'
      · exact h
      · have := ih (r.sqliteId :: seen) x hx'
        exact fun hc => this (List.mem_cons_of_mem _ hc)

lemma dedupBySqliteId_nodup (l : List VectorQueryResult) (seen : List Nat) :
    ((dedupBySqliteId l seen).map (fun r => r.sqliteId)).Nodup := by
  induction l generalizing seen with
  | nil => simp [dedupBySqliteId]
  | cons r rest ih =>
    rw [dedupBySqliteId]
    by_cases h : r.sqliteId ∈ seen
    · rw [if_pos h]
      exact ih seen
    · rw [if_neg h]
      rw [List.map_cons, List.nodup_cons]
      refine ⟨?_, ih (r.sqliteId :: seen)⟩
      intro hc
      rw [List.mem_map] at hc
      obtain ⟨y, hy, hysq⟩ := hc
      have := dedupBySqliteId_not_seen rest (r.sqliteId :: seen) y hy
      exact this (by rw [hysq]; exact List.mem_cons_self _ _)

lemma dedupBySqliteId_min (l : List VectorQueryResult) (seen : List Nat)
    (hsorted : List.Sorted resLE l) :
    ∀ r ∈ dedupBySqliteId l seen, ∀ y ∈ l, y.sqliteId = r.sqliteId →
      r.distance ≤ y.distance := by
  induction l generalizing seen with
  | nil => intro r hr; simp [dedupBySqliteId] at hr
  | cons x rest ih =>
    intro r hr y hy hsq
    rw [List.sorted_cons] at hsorted
    rw [dedupBySqliteId] at hr
    by_cases h : x.sqliteId ∈ seen
    · rw [if_pos h] at hr
      rcases List.mem_cons.mp hy with rfl | hy'
      · exact absurd (hsq ▸ h) (dedupBySqliteId_not_seen rest seen r hr)
      · exact ih seen hsorted.2 r hr y hy' hsq
    · rw [if_neg h] at hr
      rcases List.mem_cons.mp hr with rfl | hr'
      · rcases List.mem_cons.mp hy with rfl | hy'
        · exact le_refl _
        · exact hsorted.1 y hy'
      · rcases List.mem_cons.mp hy with rfl | hy'
        · exact absurd (List.mem_cons_self _ _)
            (fun hc => (dedupBySqliteId_not_seen rest (y.sqliteId :: seen) r hr')
              (hsq ▸ hc))
        · exact ih (x.sqliteId :: seen) hsorted.2 r hr' y hy' hsq

/-- C5: every successful `query` returns results sorted by ascending distance,
each originating from a stored row that matches every provided filter field
conjunctively and has an embedding; the results are deduplicated by
`sqlite_id` (no owning row appears twice) and, for each returned result, no
document of the same owning row anywhere in the filtered store scores
strictly better — the best-scoring document per owning row is the one kept.
This holds for every cosine-similarity valuation `sim` of the stored
embeddings against the query embedding. -/
theorem C5_query_order_filter_dedup (qe : List ℚ) (sim : List ℚ → List ℚ → ℚ)
    (rows : List VectorRow) (limit : Nat) (f : VectorFilters) :
    List.Sorted resLE (queryModel true true (Except.ok qe) sim rows limit f) ∧
      (∀ res ∈ queryModel true true (Except.ok qe) sim rows limit f,
        ∃ row, row ∈ rows ∧ matchesFilters f row = true ∧ row.embedding.isSome = true ∧
          res = scoreRow (sim qe) row) ∧
      ((queryModel true true (Except.ok qe) sim rows limit f).map
        (fun r => r.sqliteId)).Nodup ∧
      (∀ res ∈ queryModel true true (Except.ok qe) sim rows limit f,
        ∀ row, row ∈ rows → matchesFilters f row = true → row.embedding.isSome = true →
          row.sqliteId = res.sqliteId →
            res.distance ≤ (scoreRow (sim qe) row).distance) := by
  have hq : queryModel true true (Except.ok qe) sim rows limit f =
      dedupBySqliteId (bruteForceSearch (sim qe) rows limit f) [] := rfl
  have hscored : bruteForceSearch (sim qe) rows limit f =
      List.take limit
        (List.insertionSort resLE
          ((rows.filter (fun r => matchesFilters f r && r.embedding.isSome)).map
            (scoreRow (sim qe)))) := rfl
  have hSsorted : List.Sorted resLE
      (List.insertionSort resLE
        ((rows.filter (fun r => matchesFilters f r && r.embedding.isSome)).map
          (scoreRow (sim qe)))) :=
    List.sorted_insertionSort resLE _
  have hTsorted : List.Sorted resLE (bruteForceSearch (sim qe) rows limit f) := by
    rw [hscored]
    exact List.Pairwise.sublist (List.take_sublist _ _) hSsorted
  have hperm : ∀ y, y ∈ List.insertionSort resLE
      ((rows.filter (fun r => matchesFilters f r && r.embedding.isSome)).map
        (scoreRow (sim qe))) ↔
      y ∈ (rows.filter (fun r => matchesFilters f r && r.embedding.isSome)).map
        (scoreRow (sim qe)) :=
    fun y => (List.perm_insertionSort resLE _).mem_iff
  refine ⟨?_, ?_, ?_, ?_⟩
  · rw [hq]
    exact List.Pairwise.sublist (dedupBySqliteId_sublist _ _) hTsorted
  · intro res hres
    rw [hq] at hres
    have hT : res ∈ bruteForceSearch (sim qe) rows limit f :=
      (dedupBySqliteId_sublist _ _).subset hres
    rw [hscored] at hT
    have hS := List.take_sublist limit _ |>.subset hT
    rw [hperm res, List.mem_map] at hS
    obtain ⟨row, hrowmem, hroweq⟩ := hS
    rw [List.mem_filter] at hrowmem
    obtain ⟨hrows, hcond⟩ := hrowmem
    rw [Bool.and_eq_true] at hcond
    exact ⟨row, hrows, hcond.1, hcond.2, hroweq.symm⟩
  · rw [hq]
    exact dedupBySqliteId_nodup _ _
  · intro res hres row hrows hmatch hemb hsq
    rw [hq] at hres
    have hymem : scoreRow (sim qe) row ∈
        (rows.filter (fun r => matchesFilters f r && r.embedding.isSome)).map
          (scoreRow (sim qe)) := by
      rw [List.mem_map]
      exact ⟨row, List.mem_filter.mpr ⟨hrows, by rw [Bool.and_eq_true]; exact ⟨hmatch, hemb⟩⟩,
        rfl⟩
    rw [← hperm (scoreRow (sim qe) row)] at hymem
    have hsplit : List.insertionSort resLE
        ((rows.filter (fun r => matchesFilters f r && r.embedding.isSome)).map
          (scoreRow (sim qe))) =
        bruteForceSearch (sim qe) rows limit f ++
          List.drop limit
            (List.insertionSort resLE
              ((rows.filter (fun r => matchesFilters f r && r.embedding.isSome)).map
                (scoreRow (sim qe)))) := by
      rw [hscored, List.take_append_drop]
    rw [hsplit] at hymem
    rcases List.mem_append.mp hymem with hyT | hyD
    · exact dedupBySqliteId_min _ [] hTsorted res hres _ hyT (by rw [← hsq]; rfl)
    · have hcross : ∀ a ∈ bruteForceSearch (sim qe) rows limit f,
          ∀ b ∈ List.drop limit
            (List.insertionSort resLE
              ((rows.filter (fun r => matchesFilters f r && r.embedding.isSome)).map
                (scoreRow (sim qe)))), resLE a b := by
        have hP : List.Pairwise resLE
            (bruteForceSearch (sim qe) rows limit f ++
              List.drop limit
                (List.insertionSort resLE
                  ((rows.filter (fun r => matchesFilters f r && r.embedding.isSome)).map
                    (scoreRow (sim qe))))) := by
          rw [← hsplit]
          exact hSsorted
        exact (List.pairwise_append.mp hP).2.2
      exact hcross res ((dedupBySqliteId_sublist _ _).subset hres) _ hyD

/-- A concrete stored row for exercising the query model. -/
def exampleRow : VectorRow :=
  { id := "obs_7_narrative", sqliteId := 7, docType := "observation",
    content := "narrative text", metadata := "", memorySessionId := "mem",
    project := "proj", createdAtEpoch := 5, embedding := some [] }

/-- Witness for C5: the dedup invariant extracted at a concrete query — one
stored row, empty filters, limit 1 and the constant similarity valuation. -/
theorem C5_query_witness :
    ((queryModel true true (Except.ok []) (fun _ _ => 0) [exampleRow] 1 {}).map
      (fun r => r.sqliteId)).Nodup :=
  (C5_query_order_filter_dedup [] (fun _ _ => 0) [exampleRow] 1 {}).2.2.1

/-- C10: with no open database, or no embedding provider, or an embedding
provider that throws while embedding the query text, `query` returns the
empty list instead of raising. -/
theorem C10_query_failures_return_empty (dbOpen hasProvider : Bool)
    (embedOutcome : Except String (List ℚ)) (sim : List ℚ → List ℚ → ℚ)
    (rows : List VectorRow) (limit : Nat) (f : VectorFilters) (msg : String) :
    queryModel false hasProvider embedOutcome sim rows limit f = [] ∧
      queryModel dbOpen false embedOutcome sim rows limit f = [] ∧
      queryModel dbOpen hasProvider (Except.error msg) sim rows limit f = [] := by
  refine ⟨rfl, ?_, ?_⟩
  · cases dbOpen <;> rfl
  · cases dbOpen <;> cases hasProvider <;> rfl

/- ## Federation constants (src/constants/federation.ts) -/

/-- `PHI` (federation.ts line 17): the golden ratio `(1 + √5) / 2`. -/
noncomputable def PHI : ℝ := (1 + Real.sqrt 5) / 2

/-- `PHI_INVERSE` (line 23): `1 / PHI`. -/
noncomputable def PHI_INVERSE : ℝ := 1 / PHI

/-- `MAX_FEDERATION_REMOTES` (line 29): the tetrahedron constraint. -/
def MAX_FEDERATION_REMOTES : Int := 3

/-- `getPriorityWeight` (lines 48-53): 0 for negative positions, 1 for the
local node, 0 beyond the remote cap, golden decay `PHI_INVERSE ^ position`
for positions 1..3. -/
noncomputable def getPriorityWeight (position : Int) : ℝ :=
  if position < 0 then 0
  else if position = 0 then 1
  else if MAX_FEDERATION_REMOTES < position then 0
  else PHI_INVERSE ^ position.toNat

/-- `getPriorityWeightByStrategy` (lines 90-107): 0 outside 0..3, 1 at the
local position, then the selected decay schedule — golden `PHI_INVERSE ^ n`,
exponential `0.5 ^ n`, linear `1 - n * 0.25`, defaulting to golden. -/
noncomputable def getPriorityWeightByStrategy (position : Int) (strategy : String) : ℝ :=
  if position < 0 ∨ MAX_FEDERATION_REMOTES < position then 0
  else if position = 0 then 1
  else if strategy = "golden" then PHI_INVERSE ^ position.toNat
  else if strategy = "exponential" then (0.5 : ℝ) ^ position.toNat
  else if strategy = "linear" then 1 - (position : ℝ) * 0.25
  else PHI_INVERSE ^ position.toNat

/-- The result record of `validateFederationConfig` (lines 120-134). -/
structure FederationValidation where
  valid : Bool
  error : Option String
deriving DecidableEq, Repr

/-- `validateFederationConfig` (lines 120-134): negative remote counts and
counts above `MAX_FEDERATION_REMOTES` are invalid with an error message. -/
def validateFederationConfig (remoteCount : Int) : FederationValidation :=
  if remoteCount < 0 then
    { valid := false, error := some "Remote count cannot be negative" }
  else if MAX_FEDERATION_REMOTES < remoteCount then
    { valid := false,
      error := some "Maximum 3 remote databases allowed (tetrahedron constraint)" }
  else
    { valid := true, error := none }

lemma sqrt5_lower : (2.236 : ℝ) < Real.sqrt 5 := by
  nlinarith [Real.sq_sqrt (show (0 : ℝ) ≤ 5 by norm_num), Real.sqrt_nonneg 5]

lemma sqrt5_upper : Real.sqrt 5 < 2.2361 := by
  nlinarith [Real.sq_sqrt (show (0 : ℝ) ≤ 5 by norm_num), Real.sqrt_nonneg 5]

lemma PHI_INVERSE_eq : PHI_INVERSE = (Real.sqrt 5 - 1) / 2 := by
  have hs : Real.sqrt 5 ^ 2 = 5 := Real.sq_sqrt (by norm_num)
  have hpos : (0 : ℝ) < 1 + Real.sqrt 5 := by
    have := Real.sqrt_nonneg 5
    linarith
  rw [PHI_INVERSE, PHI]
  rw [div_eq_div_iff (by linarith) (by norm_num)]
  nlinarith [hs]

/-- C7: position 0 has weight 1 for every decay strategy; the golden schedule
weights at positions 1..3 are within `1/1000` of 0.618, 0.382 and 0.236
(likewise for `getPriorityWeight`); the exponential schedule gives exactly
0.5, 0.25, 0.125 and the linear schedule exactly 0.75, 0.5, 0.25; and
`validateFederationConfig` is invalid for every remote count above 3 — in
particular 4 — and for every negative count. -/
theorem C7_federation_weights (strategy : String) :
    getPriorityWeightByStrategy 0 strategy = 1 ∧
      |getPriorityWeightByStrategy 1 "golden" - 0.618| ≤ 1 / 1000 ∧
      |getPriorityWeightByStrategy 2 "golden" - 0.382| ≤ 1 / 1000 ∧
      |getPriorityWeightByStrategy 3 "golden" - 0.236| ≤ 1 / 1000 ∧
      getPriorityWeight 0 = 1 ∧
      |getPriorityWeight 1 - 0.618| ≤ 1 / 1000 ∧
      |getPriorityWeight 2 - 0.382| ≤ 1 / 1000 ∧
      |getPriorityWeight 3 - 0.236| ≤ 1 / 1000 ∧
      getPriorityWeightByStrategy 1 "exponential" = 0.5 ∧
      getPriorityWeightByStrategy 2 "exponential" = 0.25 ∧
      getPriorityWeightByStrategy 3 "exponential" = 0.125 ∧
      getPriorityWeightByStrategy 1 "linear" = 0.75 ∧
      getPriorityWeightByStrategy 2 "linear" = 0.5 ∧
      getPriorityWeightByStrategy 3 "linear" = 0.25 ∧
      (∀ remoteCount : Int, MAX_FEDERATION_REMOTES < remoteCount →
        (validateFederationConfig remoteCount).valid = false) ∧
      (validateFederationConfig 4).valid = false ∧
      (∀ remoteCount : Int, remoteCount < 0 →
        (validateFederationConfig remoteCount).valid = false) := by
  have hlo := sqrt5_lower
  have hhi := sqrt5_upper
  have hs : Real.sqrt 5 ^ 2 = 5 := Real.sq_sqrt (by norm_num)
  have hg1 : getPriorityWeightByStrategy 1 "golden" = (Real.sqrt 5 - 1) / 2 := by
    rw [getPriorityWeightByStrategy]
    rw [if_neg (by rw [MAX_FEDERATION_REMOTES]; omega), if_neg (by omega), if_pos rfl]
    rw [PHI_INVERSE_eq]
    norm_num
  have hg2 : getPriorityWeightByStrategy 2 "golden" = (3 - Real.sqrt 5) / 2 := by
    rw [getPriorityWeightByStrategy]
    rw [if_neg (by rw [MAX_FEDERATION_REMOTES]; omega), if_neg (by omega), if_pos rfl]
    rw [PHI_INVERSE_eq]
    show ((Real.sqrt 5 - 1) / 2) ^ 2 = (3 - Real.sqrt 5) / 2
    nlinarith [hs]
  have hg3 : getPriorityWeightByStrategy 3 "golden" = Real.sqrt 5 - 2 := by
    rw [getPriorityWeightByStrategy]
    rw [if_neg (by rw [MAX_FEDERATION_REMOTES]; omega), if_neg (by omega), if_pos rfl]
    rw [PHI_INVERSE_eq]
    show ((Real.sqrt 5 - 1) / 2) ^ 3 = Real.sqrt 5 - 2
    nlinarith [hs, hlo, hhi]
  have hw1 : getPriorityWeight 1 = (Real.sqrt 5 - 1) / 2 := by
    rw [getPriorityWeight]
    rw [if_neg (by omega), if_neg (by omega),
      if_neg (by rw [MAX_FEDERATION_REMOTES]; omega)]
    rw [PHI_INVERSE_eq]
    norm_num
  have hw2 : getPriorityWeight 2 = (3 - Real.sqrt 5) / 2 := by
    rw [getPriorityWeight]
    rw [if_neg (by omega), if_neg (by omega),
      if_neg (by rw [MAX_FEDERATION_REMOTES]; omega)]
    rw [PHI_INVERSE_eq]
    show ((Real.sqrt 5 - 1) / 2) ^ 2 = (3 - Real.sqrt 5) / 2
    nlinarith [hs]
  have hw3 : getPriorityWeight 3 = Real.sqrt 5 - 2 := by
    rw [getPriorityWeight]
    rw [if_neg (by omega), if_neg (by omega),
      if_neg (by rw [MAX_FEDERATION_REMOTES]; omega)]
    rw [PHI_INVERSE_eq]
    show ((Real.sqrt 5 - 1) / 2) ^ 3 = Real.sqrt 5 - 2
    nlinarith [hs, hlo, hhi]
  refine ⟨?_, ?_, ?_, ?_, ?_, ?_, ?_, ?_, ?_, ?_, ?_, ?_, ?_, ?_, ?_, ?_, ?_⟩
  · rw [getPriorityWeightByStrategy]
    rw [if_neg (by rw [MAX_FEDERATION_REMOTES]; omega), if_pos rfl]
  · rw [hg1, abs_le]; constructor <;> nlinarith
  · rw [hg2, abs_le]; constructor <;> nlinarith
  · rw [hg3, abs_le]; constructor <;> nlinarith
  · rw [getPriorityWeight]
    rw [if_neg (by omega), if_pos rfl]
  · rw [hw1, abs_le]; constructor <;> nlinarith
  · rw [hw2, abs_le]; constructor <;> nlinarith
  · rw [hw3, abs_le]; constructor <;> nlinarith
  · rw [getPriorityWeightByStrategy]
    rw [if_neg (by rw [MAX_FEDERATION_REMOTES]; omega), if_neg (by omega),
      if_neg (by decide), if_pos rfl]
    norm_num
  · rw [getPriorityWeightByStrategy]
    rw [if_neg (by rw [MAX_FEDERATION_REMOTES]; omega), if_neg (by omega),
      if_neg (by decide), if_pos rfl]
    rw [show Int.toNat 2 = 2 from rfl]
    norm_num
  · rw [getPriorityWeightByStrategy]
    rw [if_neg (by rw [MAX_FEDERATION_REMOTES]; omega), if_neg (by omega),
      if_neg (by decide), if_pos rfl]
    rw [show Int.toNat 3 = 3 from rfl]
    norm_num
  · rw [getPriorityWeightByStrategy]
    rw [if_neg (by rw [MAX_FEDERATION_REMOTES]; omega), if_neg (by omega),
      if_neg (by decide), if_neg (by decide), if_pos rfl]
    norm_num
  · rw [getPriorityWeightByStrategy]
    rw [if_neg (by rw [MAX_FEDERATION_REMOTES]; omega), if_neg (by omega),
      if_neg (by decide), if_neg (by decide), if_pos rfl]
    norm_num
  · rw [getPriorityWeightByStrategy]
    rw [if_neg (by rw [MAX_FEDERATION_REMOTES]; omega), if_neg (by omega),
      if_neg (by decide), if_neg (by decide), if_pos rfl]
    norm_num
  · intro remoteCount hrc
    rw [validateFederationConfig]
    rw [if_neg (by rw [MAX_FEDERATION_REMOTES] at hrc; omega), if_pos hrc]
  · rw [validateFederationConfig]
    rw [if_neg (by omega), if_pos (by rw [MAX_FEDERATION_REMOTES]; omega)]
  · intro remoteCount hrc
    rw [validateFederationConfig, if_pos hrc]

/-- Witness for C7: the out-of-bounds remote counts 4 and -1 are rejected. -/
theorem C7_federation_weights_witness :
    (validateFederationConfig 4).valid = false ∧
      (validateFederationConfig (-1)).valid = false :=
  ⟨(C7_federation_weights "golden").2.2.2.2.2.2.2.2.2.2.2.2.2.2.1 4
      (by rw [MAX_FEDERATION_REMOTES]; omega),
    (C7_federation_weights "golden").2.2.2.2.2.2.2.2.2.2.2.2.2.2.2.2 (-1) (by omega)⟩

/- ## Embedding blob wire format (EmbeddingProvider.ts, embeddingToBlob /
   blobToEmbedding) -/

/-- The rounding performed by `buffer.writeFloatLE` (EmbeddingProvider.ts,
`embeddingToBlob`): a JavaScript number is rounded to the nearest IEEE-754
binary32 value, i.e. to the nearest multiple of `2 ^ (e - 23)` where
`2 ^ e ≤ |x| < 2 ^ (e + 1)`.  Exact ties at the 25-bit boundary are rounded
upward here rather than to even, and subnormal underflow and overflow to
infinity lie outside the magnitude range used below; off those boundary cases
this is exactly the float32 value stored in the blob. -/
def roundF32 (x : ℚ) : ℚ :=
  if x = 0 then 0
  else
    ((round (x / (2 : ℚ) ^ (Int.log 2 |x| - 23)) : ℤ) : ℚ) *
      (2 : ℚ) ^ (Int.log 2 |x| - 23)

/-- `embeddingToBlob` (EmbeddingProvider.ts): each coordinate is written with
`writeFloatLE` into 4 bytes.  The blob is modelled by the list of float32
values its little-endian byte groups denote; `blobByteLength` below accounts
for the `dimensions * 4` byte length. -/
def embeddingToBlob (embedding : List ℚ) : List ℚ :=
  embedding.map roundF32

/-- Byte length of a blob: 4 bytes (one little-endian float32) per value,
`Buffer.alloc(embedding.length * 4)` in the source. -/
def blobByteLength (blob : List ℚ) : Nat :=
  blob.length * 4

/-- `blobToEmbedding` (EmbeddingProvider.ts): `readFloatLE` recovers each
stored float32 exactly, so on the denoted values the decode is the
identity. -/
def blobToEmbedding (blob : List ℚ) : List ℚ :=
  blob

lemma roundF32_err (x : ℚ) (hx : |x| ≤ 1024) : |roundF32 x - x| ≤ 1 / 10000 := by
  by_cases h0 : x = 0
  · rw [h0]
    norm_num [roundF32]
  · rw [roundF32, if_neg h0]
    have hu : (0 : ℚ) < (2 : ℚ) ^ (Int.log 2 |x| - 23) := zpow_pos (by norm_num) _
    have h2e : (2 : ℚ) ^ (Int.log 2 |x|) ≤ |x| :=
      Int.zpow_log_le_self (by norm_num) (abs_pos.mpr h0)
    have hrw : ((round (x / (2 : ℚ) ^ (Int.log 2 |x| - 23)) : ℤ) : ℚ) *
        (2 : ℚ) ^ (Int.log 2 |x| - 23) - x =
        (((round (x / (2 : ℚ) ^ (Int.log 2 |x| - 23)) : ℤ) : ℚ) -
          x / (2 : ℚ) ^ (Int.log 2 |x| - 23)) * (2 : ℚ) ^ (Int.log 2 |x| - 23) := by
      rw [sub_mul, div_mul_cancel₀ _ (ne_of_gt hu)]
    rw [hrw, abs_mul, abs_of_pos hu]
    have hround : |((round (x / (2 : ℚ) ^ (Int.log 2 |x| - 23)) : ℤ) : ℚ) -
        x / (2 : ℚ) ^ (Int.log 2 |x| - 23)| ≤ 1 / 2 := by
      rw [abs_sub_comm]
      exact abs_sub_round _
    have hub : (2 : ℚ) ^ (Int.log 2 |x| - 23) ≤ 1024 * (2 : ℚ) ^ (-23 : ℤ) := by
      rw [show Int.log 2 |x| - 23 = Int.log 2 |x| + (-23 : ℤ) from by ring,
        zpow_add₀ (by norm_num : (2 : ℚ) ≠ 0)]
      exact mul_le_mul_of_nonneg_right (le_trans h2e hx)
        (le_of_lt (zpow_pos (by norm_num) _))
    have hval : (1024 : ℚ) * (2 : ℚ) ^ (-23 : ℤ) = 1 / 8192 := by
      rw [zpow_neg]
      norm_num
    calc |((round (x / (2 : ℚ) ^ (Int.log 2 |x| - 23)) : ℤ) : ℚ) -
          x / (2 : ℚ) ^ (Int.log 2 |x| - 23)| * (2 : ℚ) ^ (Int.log 2 |x| - 23)
        ≤ (1 / 2) * (1024 * (2 : ℚ) ^ (-23 : ℤ)) := by
          apply mul_le_mul hround hub (le_of_lt hu)
          norm_num
      _ ≤ 1 / 10000 := by
          rw [hval]
          norm_num

/-- C8 (amended): for every vector of at most 768 coordinates each bounded in
magnitude by 1024 (embedding vectors are unit-normalized, so well within
this), decoding the encoded blob yields exactly as many coordinates, the blob
is `length * 4` bytes, and every decoded coordinate is within `1/10000` of
the original.  The unamended claim — any float vector — fails for large
coordinates, where float32 rounding exceeds the `1e-4` tolerance (see the
counterexample). -/
theorem C8_blob_roundtrip (v : List ℚ) (hlen : v.length ≤ 768)
    (hbound : ∀ x ∈ v, |x| ≤ 1024) :
    (blobToEmbedding (embeddingToBlob v)).length = v.length ∧
      blobByteLength (embeddingToBlob v) = v.length * 4 ∧
      List.Forall₂ (fun y x => |y - x| ≤ 1 / 10000)
        (blobToEmbedding (embeddingToBlob v)) v := by
  refine ⟨by simp [blobToEmbedding, embeddingToBlob],
    by simp [blobByteLength, embeddingToBlob], ?_⟩
  rw [blobToEmbedding, embeddingToBlob]
  rw [List.forall₂_map_left_iff]
  rw [List.forall₂_same]
  intro x hx
  exact roundF32_err x (hbound x hx)

/-- Witness for C8 at the one-coordinate vector `[1/2]`. -/
theorem C8_blob_roundtrip_witness :
    (blobToEmbedding (embeddingToBlob [(1 : ℚ) / 2])).length = ([(1 : ℚ) / 2]).length ∧
      blobByteLength (embeddingToBlob [(1 : ℚ) / 2]) = ([(1 : ℚ) / 2]).length * 4 ∧
      List.Forall₂ (fun y x => |y - x| ≤ 1 / 10000)
        (blobToEmbedding (embeddingToBlob [(1 : ℚ) / 2])) [(1 : ℚ) / 2] :=
  C8_blob_roundtrip [(1 : ℚ) / 2] (by norm_num)
    (by
      intro x hx
      rw [List.mem_singleton] at hx
      rw [hx, abs_of_pos (by norm_num : (0 : ℚ) < 1 / 2)]
      norm_num)

lemma roundF32_at_1073741825 : roundF32 (1073741825 : ℚ) = 1073741824 := by
  rw [roundF32, if_neg (by norm_num)]
  rw [show |(1073741825 : ℚ)| = 1073741825 from by norm_num]
  have hlog : Int.log 2 (1073741825 : ℚ) = 30 := by
    rw [show (1073741825 : ℚ) = ((1073741825 : ℕ) : ℚ) from by norm_num]
    rw [Int.log_natCast]
    exact_mod_cast Nat.log_eq_of_pow_le_of_lt_pow (by norm_num) (by norm_num)
  rw [hlog]
  rw [show (2 : ℚ) ^ ((30 : ℤ) - 23) = 128 from by norm_num]
  rw [round_eq]
  norm_num

/-- Counterexample to C8 as stated: the single-coordinate float vector
`[2^30 + 1]` (well-formed, length 1 ≤ 768) decodes to `[2^30]` after the
float32 blob round-trip — writeFloatLE rounds `1073741825` to the nearest
binary32 value `1073741824` — an error of 1, far above the claimed `1e-4`
per-coordinate tolerance. -/
theorem C8_blob_roundtrip_counterexample :
    ¬ List.Forall₂ (fun y x => |y - x| ≤ 1 / 10000)
      (blobToEmbedding (embeddingToBlob [(1073741825 : ℚ)])) [(1073741825 : ℚ)] := by
  intro hc
  rw [blobToEmbedding, embeddingToBlob, List.map_cons, List.map_nil] at hc
  rw [roundF32_at_1073741825] at hc
  cases hc with
  | cons h _ => norm_num at h
